import Mathlib

/-!
# Verification of the forecasting module of the educa-mais-dashboard

Shallow embedding of `src/forecasting.py` (`generate_forecast`, `run_backtest`,
`generate_smart_insights`).  Python floats are modelled as exact rationals `ℚ`;
pandas timestamps are modelled as a calendar-day index `day : ℤ` together with a
time-of-day component `sec : ℕ` that the pipeline discards (`df[date_col].dt.date`
keeps only the calendar date).  The random Gaussian noise drawn in the organic-noise
stage is modelled as an arbitrary list of rationals (a parameter), since any real
vector is a possible draw; the *scale* of that noise is modelled separately, at the
squared level (`noiseScaleSq`), because standard deviations involve a square root:
two nonnegative scales are equal iff their squares are, so all comparisons of noise
scales are faithfully expressed on squares.
-/

namespace EducaDash

/-- One input record of the raw dataframe handed to the forecasting functions:
a timestamp split into its calendar day (`day`, as a day index `ℤ`) and its
time-of-day part (`sec`), plus the numeric value of `value_col`. -/
structure SrcRow where
  day : ℤ
  sec : ℕ
  value : ℚ
deriving DecidableEq

/-- `df.groupby(df[date_col].dt.date)` groups on the calendar date only:
the sum of `value_col` over all records falling on day `d`. -/
def sumOn (rows : List SrcRow) (d : ℤ) : ℚ :=
  ((rows.filter (fun r => r.day == d)).map (fun r => r.value)).sum

/-- Smallest calendar day appearing in the input (`daily[date_col].min()`);
`0` for an empty input (pandas would give `NaT`, unused by the claims). -/
def minDay : List SrcRow → ℤ
  | [] => 0
  | r :: rs => (rs.map (fun s => s.day)).foldl min r.day

/-- Largest calendar day appearing in the input (`daily[date_col].max()`). -/
def maxDay : List SrcRow → ℤ
  | [] => 0
  | r :: rs => (rs.map (fun s => s.day)).foldl max r.day

/-- Number of days in the continuous range `[minDay, maxDay]`. -/
def numDays (rows : List SrcRow) : ℕ :=
  (maxDay rows - minDay rows).toNat + 1

/-- The daily aggregation step shared by `generate_forecast` (lines 59-67) and
`run_backtest` (lines 188-196): group by calendar date, sum the values, sort by
date, and reindex over `pd.date_range(min, max)` filling missing days with `0`.
The reindexed series assigns to each day `d` of the range the grouped sum for
`d` when present and `0` otherwise; both cases equal `sumOn rows d` (an empty
sum is `0`).  On the empty input the source raises `ValueError`
(`pd.date_range` over `NaT` endpoints) rather than producing a series; this
function returns `[]` there, and the call site whose behavior depends on the
empty input (`run_backtest`) models that raise explicitly. -/
def dailySeries (rows : List SrcRow) : List (ℤ × ℚ) :=
  if rows = [] then []
  else (List.range (numDays rows)).map
    (fun i : ℕ => (minDay rows + (i : ℤ), sumOn rows (minDay rows + (i : ℤ))))

/-! ## The post-processing pipeline of `generate_forecast` (lines 119-161)

The raw model output (`forecast_values`) is an arbitrary list of rationals: the
Prophet / Holt-Winters fits are external library calls, so their output is a
parameter of the embedding; the fallback branch (`[daily.mean()] * horizon`,
lines 114-117) is embedded exactly as `fallback_raw`. -/

/-- Arithmetic mean of a list (`Series.mean()`); `0` for the empty list, whose
pandas `NaN` result is converted to `0` wherever the code guards it. -/
def mean (l : List ℚ) : ℚ := l.sum / l.length

/-- The last `min(n, len l)` elements of `l` (`Series.tail(n)`). -/
def lastN (l : List ℚ) (n : ℕ) : List ℚ := l.drop (l.length - n)

/-- The value column of an aggregated daily series. -/
def vals (daily : List (ℤ × ℚ)) : List ℚ := daily.map Prod.snd

/-- Lines 126-128: `recent_avg = daily.tail(30)[value_col].mean()`, with the
`NaN` of an empty series replaced by `0`. -/
def recent_avg (daily : List (ℤ × ℚ)) : ℚ :=
  if vals daily = [] then 0 else mean (lastN (vals daily) 30)

/-- Lines 130-137: the optimistic-bias percentage.  `first_forecast` is the
first raw value (`0` when the raw list is empty); the bias is
`min((recent_avg - first)/first, 0.20)` when `first < recent_avg` and
`first > 0`, else `0`. -/
def bias_percentage (daily : List (ℤ × ℚ)) (raw : List ℚ) : ℚ :=
  let first := raw.headD 0
  if first < recent_avg daily ∧ 0 < first
  then min ((recent_avg daily - first) / first) (1 / 5)
  else 0

/-- Line 140: every raw value is multiplied by `(1 + bias_percentage)`. -/
def adjusted_forecast (daily : List (ℤ × ℚ)) (raw : List ℚ) : List ℚ :=
  raw.map (fun v => v * (1 + bias_percentage daily raw))

/-- Lines 142-145: the sustainability floor `recent_avg * 0.4`, applied with
`max` to every bias-adjusted value. -/
def floored_forecast (daily : List (ℤ × ℚ)) (raw : List ℚ) : List ℚ :=
  (adjusted_forecast daily raw).map (fun v => max v (recent_avg daily * (2 / 5)))

/-- Lines 157-161: add the (externally drawn) noise to each value and clamp the
result at `0` from below. -/
def final_values (daily : List (ℤ × ℚ)) (raw noise : List ℚ) : List ℚ :=
  List.zipWith (fun v n => max 0 (v + n)) (floored_forecast daily raw) noise

/-- Lines 114-117: the fallback branch for an unrecognized algorithm name
fills the horizon with the mean of the aggregated daily values. -/
def fallback_raw (daily : List (ℤ × ℚ)) (horizon : ℕ) : List ℚ :=
  List.replicate horizon (mean (vals daily))

/-- Sample variance with `ddof = 1` (the square of pandas `Series.std()`):
undefined (`NaN`, modelled as `none`) when fewer than two values exist. -/
def sampleVar (l : List ℚ) : Option ℚ :=
  if l.length < 2 then none
  else some ((l.map (fun v => (v - mean l) ^ 2)).sum / ((l.length : ℚ) - 1))

/-- Lines 147-155, at the squared level: the square of the Gaussian noise scale
`hist_std * 0.3`, where `hist_std = daily[value_col].std()` over the whole
aggregated series, replaced by `recent_avg * 0.1` when it is `NaN` or `0`.
(A sample standard deviation is nonnegative, so it is `0` or `NaN` exactly when
its square is, and two noise scales agree exactly when their squares do.) -/
def noiseScaleSq (daily : List (ℤ × ℚ)) : ℚ :=
  match sampleVar (vals daily) with
  | none => (recent_avg daily * (1 / 10) * (3 / 10)) ^ 2
  | some v => if v = 0 then (recent_avg daily * (1 / 10) * (3 / 10)) ^ 2
              else v * (3 / 10) ^ 2

/-! ## Assembling the returned dataframe (lines 69-74 and 163-175) -/

/-- The `Type` tag distinguishing `Histórico` from `Previsão` rows. -/
inductive RowType where
  | hist
  | forecast
deriving DecidableEq

/-- One row of the dataframe returned by `generate_forecast`. -/
structure Row where
  date : ℤ
  value : ℚ
  rtype : RowType
deriving DecidableEq

/-- Lines 70-74: `future_dates = [last_date + 1, …, last_date + horizon]`. -/
def futureDates (rows : List SrcRow) (horizon : ℕ) : List ℤ :=
  (List.range horizon).map (fun i : ℕ => maxDay rows + 1 + (i : ℤ))

/-- Lines 163-175: the historical rows (tagged `Histórico`) followed by the
forecast rows (future dates zipped with the post-processed values, tagged
`Previsão`).  `raw` is the model output, `noise` the Gaussian draw. -/
def generateForecast (rows : List SrcRow) (raw noise : List ℚ) (horizon : ℕ) :
    List Row :=
  (dailySeries rows).map (fun p => Row.mk p.1 p.2 RowType.hist)
    ++ ((futureDates rows horizon).zip
          (final_values (dailySeries rows) raw noise)).map
        (fun p => Row.mk p.1 p.2 RowType.forecast)

/-! ## `run_backtest` (lines 177-257) -/

/-- Lines 243-249: MAPE over the joined (actual, predicted) pairs, restricted
to the pairs whose actual value is nonzero; `0` when none remains.
The code computes `np.mean(np.abs((y_true - y_pred) / y_true)) * 100`. -/
def mape (pairs : List (ℚ × ℚ)) : ℚ :=
  let nz := pairs.filter (fun p => !(p.1 == 0))
  if nz.length = 0 then 0
  else ((nz.map (fun p => |(p.1 - p.2) / p.1|)).sum / nz.length) * 100

/-- Outcome of `run_backtest`: the `ValueError` escaping from the aggregation
on an empty input, the insufficient-data error dictionary, or the metrics
dictionary.  `rmseSq` is the square of the reported RMSE (exact in `ℚ`,
whereas the RMSE itself is a square root). -/
inductive BacktestResult where
  | raisesValueError
  | insufficientData
  | ok (mae rmseSq mapeVal : ℚ) (comparison : List (ℤ × ℚ × ℚ))
deriving DecidableEq

/-- Lines 188-257.  On an empty input the aggregation itself raises: line 194
evaluates `pd.date_range(daily[date_col].min(), daily[date_col].max())` with
both endpoints `NaT`, and pandas raises `ValueError` before the length check
at line 198 is reached — modelled by the `raisesValueError` outcome.
Otherwise, after the same aggregation as `generate_forecast`, the code returns
the error outcome when `len(daily) <= test_days`; else it splits the tail
`test_days` rows off as the test set, forecasts with `generate_forecast` on
the train part (whose re-aggregation is the identity on already-daily rows),
inner-joins forecast and test on the date, and reports MAE, RMSE and MAPE.
`raw` and `noise` parameterize the model output and the noise draw inside the
nested `generate_forecast` call. -/
def run_backtest (rows : List SrcRow) (raw noise : List ℚ) (testDays : ℕ) :
    BacktestResult :=
  if rows = [] then BacktestResult.raisesValueError
  else
  let daily := dailySeries rows
  if daily.length ≤ testDays then BacktestResult.insufficientData
  else
    let trainRows := (daily.take (daily.length - testDays)).map
      (fun p => SrcRow.mk p.1 0 p.2)
    let testPart := daily.drop (daily.length - testDays)
    let fc := (generateForecast trainRows raw noise testDays).filter
      (fun r => r.rtype == RowType.forecast)
    let comparison := testPart.filterMap
      (fun t => (fc.find? (fun f => f.date == t.1)).map
        (fun f => (t.1, t.2, f.value)))
    let pairs := comparison.map (fun c => (c.2.1, c.2.2))
    BacktestResult.ok
      (mean (pairs.map (fun p => |p.1 - p.2|)))
      (mean (pairs.map (fun p => (p.1 - p.2) ^ 2)))
      (mape pairs) comparison

/-! ## `generate_smart_insights` (lines 260-343) -/

/-- The distinct calendar days of the input, ascending
(`df.groupby(df[date_col].dt.date)` keys after `sort_index()`). -/
def distinctDays (rows : List SrcRow) : List ℤ :=
  ((rows.map (fun r => r.day)).toFinset).sort (· ≤ ·)

/-- Line 291: per-day aggregation *without* reindexing — one entry per distinct
day present in the data, sorted by day. -/
def insightsDaily (rows : List SrcRow) : List (ℤ × ℚ) :=
  (distinctDays rows).map (fun d => (d, sumOn rows d))

/-- Structured outcome of `generate_smart_insights`: either the fixed
insufficient-data sentinel text (`C.MSG_INSUFFICIENT_DATA`), or the quantities
the report text is formatted from (string formatting is presentation only). -/
inductive InsightResult where
  | insufficientData
  | report (trendPct futureSum futureDailyAvg : ℚ) (horizonDays : ℕ)
deriving DecidableEq

/-- Lines 290-343: return the sentinel when the per-day history has fewer than
14 entries; otherwise compare the last 7 days with the 7 before them and
summarize the `Previsão` rows of the forecast dataframe. -/
def generate_smart_insights (rows : List SrcRow) (forecastDF : List Row) :
    InsightResult :=
  let daily := insightsDaily rows
  if daily.length < 14 then InsightResult.insufficientData
  else
    let dvals := vals daily
    let recentAvg7 := mean (lastN dvals 7)
    let prevAvg7 := mean (((dvals.drop (dvals.length - 14)).take 7))
    let trendPct := if 0 < prevAvg7 then ((recentAvg7 - prevAvg7) / prevAvg7) * 100
                    else 0
    let future := forecastDF.filter (fun r => r.rtype == RowType.forecast)
    InsightResult.report trendPct ((future.map (fun r => r.value)).sum)
      (mean (future.map (fun r => r.value))) future.length

/-! ## Definitions taken from the spec's words (for refinement comparisons) -/

/-- Modelled from the spec (claim C1): the additive optimistic-bias rule.
`start_avg` is the mean of the first `min(horizon, 30)` raw values; when
`start_avg < recent_avg` every value gains the constant offset
`recent_avg * 1.05 - start_avg`. -/
def specAdditiveBias (daily : List (ℤ × ℚ)) (horizon : ℕ) (raw : List ℚ) :
    List ℚ :=
  let startAvg := mean (raw.take (min horizon 30))
  if startAvg < recent_avg daily
  then raw.map (fun v => v + (recent_avg daily * (21 / 20) - startAvg))
  else raw

/-- Modelled from the spec (claim C5): the square of the noise scale when
`hist_std` is taken over the *trailing window* of the last `min(30, len)`
values instead of the whole series. -/
def specNoiseScaleSqWindow (daily : List (ℤ × ℚ)) : ℚ :=
  match sampleVar (lastN (vals daily) 30) with
  | none => (recent_avg daily * (1 / 10) * (3 / 10)) ^ 2
  | some v => if v = 0 then (recent_avg daily * (1 / 10) * (3 / 10)) ^ 2
              else v * (3 / 10) ^ 2

/-- Modelled from the spec (claim C7, literal reading): MAPE with the absolute
value taken of the numerator only, `mean(|actual - predicted| / actual) * 100`. -/
def specMape (pairs : List (ℚ × ℚ)) : ℚ :=
  let nz := pairs.filter (fun p => !(p.1 == 0))
  if nz.length = 0 then 0
  else ((nz.map (fun p => |p.1 - p.2| / p.1)).sum / nz.length) * 100

/-- The amended C7 formula: `mean(|actual - predicted| / |actual|) * 100` over
the rows with nonzero actual. -/
def specMapeAbs (pairs : List (ℚ × ℚ)) : ℚ :=
  let nz := pairs.filter (fun p => !(p.1 == 0))
  if nz.length = 0 then 0
  else ((nz.map (fun p => |p.1 - p.2| / |p.1|)).sum / nz.length) * 100

/-- A constant daily series: value `V` on each of `d` consecutive days starting
at day `0` — the aggregation of a constant history, used to state the
robustness scenario of the spec (constant history of value `V` over `d` days). -/
def constDaily (V : ℚ) (d : ℕ) : List (ℤ × ℚ) :=
  (List.range d).map (fun i : ℕ => ((i : ℤ), V))

/-! ## Lemma section -/

/- Basic facts about `minDay`/`maxDay`. -/

theorem foldl_min_le_init (l : List ℤ) (b : ℤ) : l.foldl min b ≤ b := by
  induction l generalizing b with
  | nil => simp
  | cons x xs ih =>
      calc (x :: xs).foldl min b = xs.foldl min (min b x) := rfl
        _ ≤ min b x := ih (min b x)
        _ ≤ b := min_le_left _ _

theorem init_le_foldl_max (l : List ℤ) (b : ℤ) : b ≤ l.foldl max b := by
  induction l generalizing b with
  | nil => simp
  | cons x xs ih =>
      calc b ≤ max b x := le_max_left _ _
        _ ≤ xs.foldl max (max b x) := ih (max b x)
        _ = (x :: xs).foldl max b := rfl

theorem minDay_le_maxDay (rows : List SrcRow) (h : rows ≠ []) :
    minDay rows ≤ maxDay rows := by
  match rows with
  | [] => exact absurd rfl h
  | r :: rs =>
      calc minDay (r :: rs) ≤ r.day := foldl_min_le_init _ _
        _ ≤ maxDay (r :: rs) := init_le_foldl_max _ _

theorem dailySeries_length (rows : List SrcRow) (h : rows ≠ []) :
    (dailySeries rows).length = numDays rows := by
  rw [dailySeries, if_neg h, List.length_map, List.length_range]

/-- The dates of the aggregated series are exactly `minDay, minDay+1, …, maxDay`. -/
theorem dailySeries_dates (rows : List SrcRow) (h : rows ≠ []) :
    (dailySeries rows).map Prod.fst
      = (List.range (numDays rows)).map (fun i : ℕ => minDay rows + (i : ℤ)) := by
  rw [dailySeries, if_neg h, List.map_map]
  rfl

theorem dailySeries_values (rows : List SrcRow) :
    ∀ p ∈ dailySeries rows, p.2 = sumOn rows p.1 := by
  intro p hp
  by_cases h : rows = []
  · rw [dailySeries, if_pos h] at hp
    exact absurd hp (List.not_mem_nil p)
  · rw [dailySeries, if_neg h] at hp
    obtain ⟨i, _, rfl⟩ := List.mem_map.1 hp
    rfl

theorem dailySeries_pairwise (rows : List SrcRow) :
    (dailySeries rows).Pairwise (fun a b => a.1 < b.1) := by
  by_cases h : rows = []
  · rw [dailySeries, if_pos h]
    exact List.Pairwise.nil
  · rw [dailySeries, if_neg h]
    refine (List.pairwise_map).2 ?_
    refine List.Pairwise.imp ?_ (List.pairwise_lt_range _)
    intro i j hij
    simpa using hij

theorem dailySeries_fst_le_maxDay (rows : List SrcRow) (hne : rows ≠ []) :
    ∀ p ∈ dailySeries rows, p.1 ≤ maxDay rows := by
  intro p hp
  rw [dailySeries, if_neg hne] at hp
  obtain ⟨i, hi, rfl⟩ := List.mem_map.1 hp
  rw [List.mem_range, numDays] at hi
  have h1 : minDay rows ≤ maxDay rows := minDay_le_maxDay rows hne
  omega

theorem final_values_length (daily : List (ℤ × ℚ)) (raw noise : List ℚ) :
    (final_values daily raw noise).length = min raw.length noise.length := by
  rw [final_values, List.length_zipWith, floored_forecast, List.length_map,
    adjusted_forecast, List.length_map]

theorem final_values_nonneg (daily : List (ℤ × ℚ)) (raw noise : List ℚ) :
    ∀ x ∈ final_values daily raw noise, 0 ≤ x := by
  rw [final_values]
  generalize floored_forecast daily raw = l
  induction l generalizing noise with
  | nil => intro x hx; exact absurd hx (List.not_mem_nil x)
  | cons v vs ih =>
      intro x hx
      cases noise with
      | nil => exact absurd hx (List.not_mem_nil x)
      | cons n ns =>
          rcases List.mem_cons.1 hx with rfl | hx'
          · exact le_max_left _ _
          · exact ih ns x hx'

theorem futureDates_pairwise_lt (rows : List SrcRow) (horizon : ℕ) :
    (futureDates rows horizon).Pairwise (· < ·) := by
  rw [futureDates]
  refine (List.pairwise_map).2 ?_
  refine List.Pairwise.imp ?_ (List.pairwise_lt_range _)
  intro i j hij
  omega

theorem mem_futureDates (rows : List SrcRow) (horizon : ℕ) :
    ∀ x ∈ futureDates rows horizon, maxDay rows + 1 ≤ x := by
  intro x hx
  rw [futureDates] at hx
  obtain ⟨j, _, rfl⟩ := List.mem_map.1 hx
  omega

/-- C2: for every non-empty input, the daily series built by the aggregation
step has length `(max_date - min_date).days + 1`, covers exactly the dates
`min_date, min_date + 1, …, max_date` in ascending order, and carries at each
date the sum of the values of all input records for that calendar date
(records on a date absent from the input contribute the empty sum `0`, which is
the reindex fill value; the time-of-day field is discarded). -/
theorem C2_daily_aggregation (rows : List SrcRow) (hne : rows ≠ []) :
    (dailySeries rows).length = (maxDay rows - minDay rows).toNat + 1 ∧
    (dailySeries rows).map Prod.fst
      = (List.range (numDays rows)).map (fun i : ℕ => minDay rows + (i : ℤ)) ∧
    (dailySeries rows).Pairwise (fun a b => a.1 < b.1) ∧
    ∀ p ∈ dailySeries rows,
      p.2 = ((rows.filter (fun r => r.day == p.1)).map (fun r => r.value)).sum :=
  ⟨dailySeries_length rows hne, dailySeries_dates rows hne,
    dailySeries_pairwise rows, dailySeries_values rows⟩

theorem C2_witness :
    (dailySeries [SrcRow.mk 0 5 3, SrcRow.mk 2 0 1]).length
      = (maxDay [SrcRow.mk 0 5 3, SrcRow.mk 2 0 1]
          - minDay [SrcRow.mk 0 5 3, SrcRow.mk 2 0 1]).toNat + 1 ∧
    (dailySeries [SrcRow.mk 0 5 3, SrcRow.mk 2 0 1]).map Prod.fst
      = (List.range (numDays [SrcRow.mk 0 5 3, SrcRow.mk 2 0 1])).map
          (fun i : ℕ => minDay [SrcRow.mk 0 5 3, SrcRow.mk 2 0 1] + (i : ℤ)) ∧
    (dailySeries [SrcRow.mk 0 5 3, SrcRow.mk 2 0 1]).Pairwise
      (fun a b => a.1 < b.1) ∧
    ∀ p ∈ dailySeries [SrcRow.mk 0 5 3, SrcRow.mk 2 0 1],
      p.2 = (([SrcRow.mk 0 5 3, SrcRow.mk 2 0 1].filter
          (fun r => r.day == p.1)).map (fun r => r.value)).sum :=
  C2_daily_aggregation [SrcRow.mk 0 5 3, SrcRow.mk 2 0 1] (by decide)

/-- C3: for every non-empty input and every horizon `h > 0` (with the model
output and the noise draw of length `h`, as the algorithms guarantee), the
returned dataframe splits as historical rows followed by forecast rows: the
forecast-tagged rows are exactly `h` points with dates
`last_historical_date + 1, …, last_historical_date + h`, contiguous and
ascending, every historical row precedes every forecast row, and no two rows
of the result share a date. -/
theorem C3_forecast_structure (rows : List SrcRow) (raw noise : List ℚ)
    (h : ℕ) (hne : rows ≠ []) (_hh : 0 < h)
    (hraw : raw.length = h) (hnoise : noise.length = h) :
    ∃ H F : List Row,
      generateForecast rows raw noise h = H ++ F ∧
      (∀ r ∈ H, r.rtype = RowType.hist) ∧
      (∀ r ∈ F, r.rtype = RowType.forecast) ∧
      (generateForecast rows raw noise h).filter
        (fun r => r.rtype == RowType.forecast) = F ∧
      F.length = h ∧
      F.map Row.date = futureDates rows h ∧
      (generateForecast rows raw noise h).Pairwise
        (fun a b => a.date ≠ b.date) := by
  have hflen : (final_values (dailySeries rows) raw noise).length = h := by
    rw [final_values_length, hraw, hnoise, min_self]
  have hfdlen : (futureDates rows h).length = h := by
    rw [futureDates, List.length_map, List.length_range]
  refine ⟨_, _, rfl, ?_, ?_, ?_, ?_, ?_, ?_⟩
  · intro r hr
    obtain ⟨p, _, rfl⟩ := List.mem_map.1 hr
    rfl
  · intro r hr
    obtain ⟨p, _, rfl⟩ := List.mem_map.1 hr
    rfl
  · rw [generateForecast, List.filter_append]
    have hH : ((dailySeries rows).map
        (fun p => Row.mk p.1 p.2 RowType.hist)).filter
          (fun r => r.rtype == RowType.forecast) = [] := by
      rw [List.filter_eq_nil_iff]
      intro r hr
      obtain ⟨p, _, rfl⟩ := List.mem_map.1 hr
      simp
    have hF : (((futureDates rows h).zip
        (final_values (dailySeries rows) raw noise)).map
          (fun p => Row.mk p.1 p.2 RowType.forecast)).filter
            (fun r => r.rtype == RowType.forecast)
        = ((futureDates rows h).zip
            (final_values (dailySeries rows) raw noise)).map
              (fun p => Row.mk p.1 p.2 RowType.forecast) := by
      rw [List.filter_eq_self]
      intro r hr
      obtain ⟨p, _, rfl⟩ := List.mem_map.1 hr
      simp
    rw [hH, hF, List.nil_append]
  · rw [List.length_map, List.length_zip, hflen, hfdlen, min_self]
  · rw [List.map_map]
    exact List.map_fst_zip _ _ (by rw [hfdlen, hflen])
  · rw [generateForecast]
    refine (List.pairwise_append).2 ⟨?_, ?_, ?_⟩
    · refine (List.pairwise_map).2 ?_
      exact List.Pairwise.imp (fun hab => ne_of_lt hab)
        (dailySeries_pairwise rows)
    · have hmap : (((futureDates rows h).zip
          (final_values (dailySeries rows) raw noise)).map
            (fun p => Row.mk p.1 p.2 RowType.forecast)).map Row.date
          = futureDates rows h := by
        rw [List.map_map]
        exact List.map_fst_zip _ _ (by rw [hfdlen, hflen])
      have hlt : ((((futureDates rows h).zip
          (final_values (dailySeries rows) raw noise)).map
            (fun p => Row.mk p.1 p.2 RowType.forecast)).map Row.date).Pairwise
              (· < ·) := by
        rw [hmap]
        exact futureDates_pairwise_lt rows h
      exact List.Pairwise.imp (fun hab => ne_of_lt hab)
        ((List.pairwise_map).1 hlt)
    · intro a ha b hb
      obtain ⟨p, hp, rfl⟩ := List.mem_map.1 ha
      obtain ⟨q, hq, rfl⟩ := List.mem_map.1 hb
      have h1 : p.1 ≤ maxDay rows := dailySeries_fst_le_maxDay rows hne p hp
      have h2 : maxDay rows + 1 ≤ q.1 :=
        mem_futureDates rows h q.1 (List.of_mem_zip hq).1
      show p.1 ≠ q.1
      omega

theorem C3_witness :
    ∃ H F : List Row,
      generateForecast [SrcRow.mk 0 0 10] [3] [0] 1 = H ++ F ∧
      (∀ r ∈ H, r.rtype = RowType.hist) ∧
      (∀ r ∈ F, r.rtype = RowType.forecast) ∧
      (generateForecast [SrcRow.mk 0 0 10] [3] [0] 1).filter
        (fun r => r.rtype == RowType.forecast) = F ∧
      F.length = 1 ∧
      F.map Row.date = futureDates [SrcRow.mk 0 0 10] 1 ∧
      (generateForecast [SrcRow.mk 0 0 10] [3] [0] 1).Pairwise
        (fun a b => a.date ≠ b.date) :=
  C3_forecast_structure [SrcRow.mk 0 0 10] [3] [0] 1
    (by decide) (by decide) (by decide) (by decide)

/-- C4: every forecast-tagged value of the dataframe returned by
`generate_forecast` is nonnegative, for every input, every model output
(hence every algorithm), every noise draw and every horizon: the last
post-processing step replaces any value still below `0` with `0`. -/
theorem C4_forecast_nonneg (rows : List SrcRow) (raw noise : List ℚ)
    (h : ℕ) : ∀ r ∈ generateForecast rows raw noise h,
      r.rtype = RowType.forecast → 0 ≤ r.value := by
  intro r hr hf
  rw [generateForecast] at hr
  rcases List.mem_append.1 hr with hl | hrt
  · obtain ⟨p, _, rfl⟩ := List.mem_map.1 hl
    exact absurd hf (by simp)
  · obtain ⟨q, hq, rfl⟩ := List.mem_map.1 hrt
    exact final_values_nonneg (dailySeries rows) raw noise q.2
      (List.of_mem_zip hq).2

theorem C4_witness :
    0 ≤ (Row.mk 1 10 RowType.forecast).value := by
  have he : generateForecast [SrcRow.mk 0 0 10] [10] [0] 1
      = [Row.mk 0 10 RowType.hist, Row.mk 1 10 RowType.forecast] := by
    norm_num [generateForecast, dailySeries, numDays, minDay, maxDay, sumOn,
      futureDates, final_values, floored_forecast, adjusted_forecast,
      bias_percentage, recent_avg, vals, lastN, mean, List.range_succ,
      List.range_zero, List.filter]
  refine C4_forecast_nonneg [SrcRow.mk 0 0 10] [10] [0] 1
    (Row.mk 1 10 RowType.forecast) ?_ rfl
  rw [he]
  exact List.Mem.tail _ (List.Mem.head _)

/-- C1 counterexample: history with `recent_avg = 100` and raw model output
`[50]` for horizon `1`.  The code's bias stage is multiplicative and capped at
`+20%`, yielding `[60]`; the additive rule of the claim would demand
`recent_avg * 1.05 - start_avg = 55` added to every value, i.e. `[105]`. -/
theorem C1_counterexample :
    adjusted_forecast [((0 : ℤ), (100 : ℚ))] [50] = [60] ∧
    specAdditiveBias [((0 : ℤ), (100 : ℚ))] 1 [50] = [105] ∧
    adjusted_forecast [((0 : ℤ), (100 : ℚ))] [50]
      ≠ specAdditiveBias [((0 : ℤ), (100 : ℚ))] 1 [50] := by
  have h1 : recent_avg [((0 : ℤ), (100 : ℚ))] = 100 := by
    norm_num [recent_avg, vals, lastN, mean]
  have hb : bias_percentage [((0 : ℤ), (100 : ℚ))] [50] = 1 / 5 := by
    simp only [bias_percentage, List.headD_cons, h1]
    rw [if_pos (by norm_num)]
    rw [show ((100 : ℚ) - 50) / 50 = 1 by norm_num]
    rw [min_eq_right (by norm_num : (1 : ℚ) / 5 ≤ 1)]
  have ha : adjusted_forecast [((0 : ℤ), (100 : ℚ))] [50] = [60] := by
    rw [adjusted_forecast, hb]
    norm_num
  have hs : specAdditiveBias [((0 : ℤ), (100 : ℚ))] 1 [50] = [105] := by
    simp only [specAdditiveBias, h1]
    rw [if_pos (by norm_num [mean])]
    norm_num [mean]
  exact ⟨ha, hs, by rw [ha, hs]; norm_num⟩

/-- C1 (amended): the optimistic-bias stage of `generate_forecast` is
multiplicative, driven by the first raw value only: when
`0 < first_forecast < recent_avg` every raw value is multiplied by the common
factor `1 + min((recent_avg - first_forecast)/first_forecast, 0.20)`;
otherwise the values pass through unchanged. -/
theorem C1_bias_multiplicative (daily : List (ℤ × ℚ)) (raw : List ℚ) :
    (0 < raw.headD 0 ∧ raw.headD 0 < recent_avg daily →
      adjusted_forecast daily raw
        = raw.map (fun v => v * (1 + min
            ((recent_avg daily - raw.headD 0) / raw.headD 0) (1 / 5)))) ∧
    (¬(0 < raw.headD 0 ∧ raw.headD 0 < recent_avg daily) →
      adjusted_forecast daily raw = raw) := by
  constructor
  · rintro ⟨h1, h2⟩
    have hb : bias_percentage daily raw
        = min ((recent_avg daily - raw.headD 0) / raw.headD 0) (1 / 5) := by
      simp only [bias_percentage]
      rw [if_pos ⟨h2, h1⟩]
    rw [adjusted_forecast, hb]
  · intro hc
    have hb : bias_percentage daily raw = 0 := by
      simp only [bias_percentage]
      rw [if_neg (fun h => hc ⟨h.2, h.1⟩)]
    rw [adjusted_forecast, hb]
    simp

theorem C1_witness :
    adjusted_forecast [((0 : ℤ), (40 : ℚ))] [50] = [50] :=
  (C1_bias_multiplicative [((0 : ℤ), (40 : ℚ))] [50]).2
    (by norm_num [recent_avg, vals, lastN, mean])

/-- C10: the bias stage multiplies every raw value by one common factor
`1 + b` with `0 ≤ b ≤ 1/5`, so no value is increased by more than 20%, and
`b = 0` whenever the first raw value is `≤ 0` or is not below `recent_avg`:
a raw forecast opening at or below zero is never lifted by this stage. -/
theorem C10_bias_bounded (daily : List (ℤ × ℚ)) (raw : List ℚ) :
    ∃ b : ℚ, 0 ≤ b ∧ b ≤ 1 / 5 ∧
      adjusted_forecast daily raw = raw.map (fun v => v * (1 + b)) ∧
      ((raw.headD 0 ≤ 0 ∨ recent_avg daily ≤ raw.headD 0) → b = 0) := by
  refine ⟨bias_percentage daily raw, ?_, ?_, rfl, ?_⟩
  · simp only [bias_percentage]
    by_cases h : raw.headD 0 < recent_avg daily ∧ 0 < raw.headD 0
    · rw [if_pos h]
      exact le_min (div_nonneg (by linarith [h.1]) h.2.le) (by norm_num)
    · rw [if_neg h]
  · simp only [bias_percentage]
    by_cases h : raw.headD 0 < recent_avg daily ∧ 0 < raw.headD 0
    · rw [if_pos h]
      exact min_le_right _ _
    · rw [if_neg h]
      norm_num
  · intro hc
    simp only [bias_percentage]
    rw [if_neg]
    rintro ⟨h1, h2⟩
    rcases hc with hc | hc
    · linarith
    · linarith

theorem C10_witness :
    ∃ b : ℚ, 0 ≤ b ∧ b ≤ 1 / 5 ∧
      adjusted_forecast [((0 : ℤ), (100 : ℚ))] [50]
        = [(50 : ℚ)].map (fun v => v * (1 + b)) ∧
      (([(50 : ℚ)].headD 0 ≤ 0
          ∨ recent_avg [((0 : ℤ), (100 : ℚ))] ≤ [(50 : ℚ)].headD 0) → b = 0) :=
  C10_bias_bounded [((0 : ℤ), (100 : ℚ))] [50]

/- Helper lemmas about replicated lists, used for the noise-scale and
constant-history claims. -/

theorem mean_replicate (k : ℕ) (V : ℚ) (hk : k ≠ 0) :
    mean (List.replicate k V) = V := by
  rw [mean, List.sum_replicate, List.length_replicate, nsmul_eq_mul]
  have hkc : (k : ℚ) ≠ 0 := Nat.cast_ne_zero.2 hk
  field_simp

theorem constDaily_vals (V : ℚ) (d : ℕ) :
    vals (constDaily V d) = List.replicate d V := by
  rw [vals, constDaily, List.map_map]
  have he : (Prod.snd ∘ fun i : ℕ => ((i : ℤ), V)) = fun _ : ℕ => V := rfl
  rw [he, List.map_const', List.length_range]

/-- C5 (amended): the organic-noise scale (squared) equals
`hist_std^2 * 0.3^2` where `hist_std` is the sample standard deviation of the
*entire* aggregated daily series — with `recent_avg * 0.1` substituted when
that standard deviation is zero (all values equal) or undefined (fewer than
two values). -/
theorem C5_noise_scale_full (daily : List (ℤ × ℚ)) :
    (((vals daily).length < 2 ∨ ∀ v ∈ vals daily, v = mean (vals daily)) →
      noiseScaleSq daily = (recent_avg daily * (1 / 10) * (3 / 10)) ^ 2) ∧
    ((2 ≤ (vals daily).length ∧ ∃ v ∈ vals daily, v ≠ mean (vals daily)) →
      noiseScaleSq daily
        = ((vals daily).map (fun v => (v - mean (vals daily)) ^ 2)).sum
            / (((vals daily).length : ℚ) - 1) * (3 / 10) ^ 2) := by
  constructor
  · rintro (hlt | hall)
    · have hv : sampleVar (vals daily) = none := by
        rw [sampleVar, if_pos hlt]
      unfold noiseScaleSq
      rw [hv]
    · by_cases hlt : (vals daily).length < 2
      · have hv : sampleVar (vals daily) = none := by
          rw [sampleVar, if_pos hlt]
        unfold noiseScaleSq
        rw [hv]
      · have hS : ((vals daily).map
            (fun v => (v - mean (vals daily)) ^ 2)).sum = 0 := by
          apply List.sum_eq_zero
          intro x hx
          obtain ⟨v, hvmem, rfl⟩ := List.mem_map.1 hx
          rw [hall v hvmem]
          ring
        have hv : sampleVar (vals daily) = some 0 := by
          rw [sampleVar, if_neg hlt, hS, zero_div]
        unfold noiseScaleSq
        rw [hv]
        simp
  · rintro ⟨hlen, v, hvmem, hvne⟩
    have hnonneg : ∀ x ∈ (vals daily).map
        (fun w => (w - mean (vals daily)) ^ 2), 0 ≤ x := by
      intro x hx
      obtain ⟨w, _, rfl⟩ := List.mem_map.1 hx
      exact sq_nonneg _
    have hterm : (0 : ℚ) < (v - mean (vals daily)) ^ 2 :=
      lt_of_le_of_ne (sq_nonneg _) (Ne.symm (pow_ne_zero 2 (sub_ne_zero.2 hvne)))
    have hSpos : 0 < ((vals daily).map
        (fun w => (w - mean (vals daily)) ^ 2)).sum :=
      lt_of_lt_of_le hterm
        (List.single_le_sum hnonneg _ (List.mem_map_of_mem _ hvmem))
    have hlt : ¬((vals daily).length < 2) := by omega
    have hd : (0 : ℚ) < ((vals daily).length : ℚ) - 1 := by
      have h2 : (2 : ℚ) ≤ ((vals daily).length : ℚ) := by exact_mod_cast hlen
      linarith
    have hvar : sampleVar (vals daily)
        = some (((vals daily).map (fun w => (w - mean (vals daily)) ^ 2)).sum
            / (((vals daily).length : ℚ) - 1)) := by
      rw [sampleVar, if_neg hlt]
    have hne0 : ((vals daily).map (fun w => (w - mean (vals daily)) ^ 2)).sum
        / (((vals daily).length : ℚ) - 1) ≠ 0 := ne_of_gt (div_pos hSpos hd)
    unfold noiseScaleSq
    rw [hvar]
    simp only [if_neg hne0]

theorem C5_witness :
    noiseScaleSq [((0 : ℤ), (1 : ℚ)), ((1 : ℤ), (3 : ℚ))]
      = ((vals [((0 : ℤ), (1 : ℚ)), ((1 : ℤ), (3 : ℚ))]).map
          (fun v => (v - mean (vals [((0 : ℤ), (1 : ℚ)), ((1 : ℤ), (3 : ℚ))])) ^ 2)).sum
        / (((vals [((0 : ℤ), (1 : ℚ)), ((1 : ℤ), (3 : ℚ))]).length : ℚ) - 1)
        * (3 / 10) ^ 2 :=
  (C5_noise_scale_full _).2
    ⟨by norm_num [vals], ⟨3, by simp [vals], by norm_num [mean, vals]⟩⟩

/-- C5 counterexample: a 31-day series whose first day holds `31` and whose
last 30 days are `0`.  The trailing 30-day window is constant, so the rule of
the claim falls back to `recent_avg * 0.1 = 0` and gives noise scale `0`; the
code takes the standard deviation of the whole series (variance `31`) and
gives the nonzero scale `sqrt(31) * 0.3` (squared: `279/100`). -/
theorem C5_counterexample :
    noiseScaleSq (((-1 : ℤ), (31 : ℚ)) :: constDaily 0 30) = 279 / 100 ∧
    specNoiseScaleSqWindow (((-1 : ℤ), (31 : ℚ)) :: constDaily 0 30) = 0 ∧
    noiseScaleSq (((-1 : ℤ), (31 : ℚ)) :: constDaily 0 30)
      ≠ specNoiseScaleSqWindow (((-1 : ℤ), (31 : ℚ)) :: constDaily 0 30) := by
  have hvals : vals (((-1 : ℤ), (31 : ℚ)) :: constDaily 0 30)
      = 31 :: List.replicate 30 0 := by
    rw [vals, List.map_cons, ← vals, constDaily_vals]
  have hlen : (31 :: List.replicate 30 (0 : ℚ)).length = 31 := by simp
  have hmean : mean (31 :: List.replicate 30 (0 : ℚ)) = 1 := by
    rw [mean, List.sum_cons, List.sum_replicate, hlen]
    norm_num
  have hsq : ((31 :: List.replicate 30 (0 : ℚ)).map
      (fun v => (v - mean (31 :: List.replicate 30 (0 : ℚ))) ^ 2)).sum = 930 := by
    rw [hmean, List.map_cons, List.map_replicate, List.sum_cons,
      List.sum_replicate, nsmul_eq_mul]
    norm_num
  have hvar : sampleVar (31 :: List.replicate 30 (0 : ℚ)) = some 31 := by
    rw [sampleVar, if_neg (by simp), hsq, hlen]
    norm_num
  have hns : noiseScaleSq (((-1 : ℤ), (31 : ℚ)) :: constDaily 0 30)
      = 279 / 100 := by
    unfold noiseScaleSq
    rw [hvals, hvar]
    rw [show (match some (31 : ℚ) with
      | none => (recent_avg (((-1 : ℤ), (31 : ℚ)) :: constDaily 0 30)
          * (1 / 10) * (3 / 10)) ^ 2
      | some v => if v = 0
          then (recent_avg (((-1 : ℤ), (31 : ℚ)) :: constDaily 0 30)
            * (1 / 10) * (3 / 10)) ^ 2
          else v * (3 / 10) ^ 2)
      = if (31 : ℚ) = 0
          then (recent_avg (((-1 : ℤ), (31 : ℚ)) :: constDaily 0 30)
            * (1 / 10) * (3 / 10)) ^ 2
          else (31 : ℚ) * (3 / 10) ^ 2 from rfl]
    rw [if_neg (by norm_num)]
    norm_num
  have hlast : lastN (31 :: List.replicate 30 (0 : ℚ)) 30
      = List.replicate 30 0 := by
    rw [lastN, hlen]
    norm_num
  have hmean0 : mean (List.replicate 30 (0 : ℚ)) = 0 := by
    rw [mean, List.sum_replicate]
    simp
  have hvar0 : sampleVar (List.replicate 30 (0 : ℚ)) = some 0 := by
    rw [sampleVar, if_neg (by simp), hmean0, List.map_replicate,
      List.sum_replicate]
    norm_num
  have hra : recent_avg (((-1 : ℤ), (31 : ℚ)) :: constDaily 0 30) = 0 := by
    rw [recent_avg, hvals, if_neg (by simp), hlast, hmean0]
  have hw : specNoiseScaleSqWindow (((-1 : ℤ), (31 : ℚ)) :: constDaily 0 30)
      = 0 := by
    unfold specNoiseScaleSqWindow
    rw [hvals, hlast, hvar0, hra]
    simp
  exact ⟨hns, hw, by rw [hns, hw]; norm_num⟩

/-- C6: the empty input falsifies the claim.  Its aggregated daily series is
empty, so the claim's hypothesis `len(series) <= test_days` holds for every
`test_days` (here `30`), yet `run_backtest` raises `ValueError` inside the
aggregation (`pd.date_range` over `NaT` endpoints, line 194, modelled by the
`raisesValueError` outcome) before the length check at line 198 — instead of
returning the insufficient-data outcome the claim and the spec demand.  On
every non-empty input the claimed behavior does hold: an aggregated series of
at most `test_days` entries yields the structured insufficient-data outcome. -/
theorem C6_empty_input_raises :
    (dailySeries []).length ≤ 30 ∧
    run_backtest [] [] [] 30 = BacktestResult.raisesValueError ∧
    BacktestResult.raisesValueError ≠ BacktestResult.insufficientData ∧
    (∀ (rows : List SrcRow) (raw noise : List ℚ) (testDays : ℕ),
      rows ≠ [] → (dailySeries rows).length ≤ testDays →
      run_backtest rows raw noise testDays
        = BacktestResult.insufficientData) := by
  refine ⟨?_, ?_, by simp, ?_⟩
  · rw [dailySeries, if_pos rfl]
    simp
  · simp [run_backtest]
  · intro rows raw noise testDays hne hlen
    simp only [run_backtest]
    rw [if_neg hne, if_pos hlen]

/-- C7 counterexample: a backtest whose single joined row has the negative
actual `-1`.  The code computes `|(-1 - 10) / (-1)| * 100 = 1100`, while the
claim's formula `|(-1) - 10| / (-1) * 100` gives `-1100`: the two disagree as
soon as a nonzero actual is negative. -/
theorem C7_counterexample :
    run_backtest [SrcRow.mk 0 0 5, SrcRow.mk 1 0 (-1)] [10] [0] 1
      = BacktestResult.ok 11 121 1100 [((1 : ℤ), (-1 : ℚ), (10 : ℚ))] ∧
    mape [((-1 : ℚ), (10 : ℚ))] = 1100 ∧
    specMape [((-1 : ℚ), (10 : ℚ))] = -1100 ∧
    (1100 : ℚ) ≠ -1100 := by
  have hds : dailySeries [SrcRow.mk 0 0 5, SrcRow.mk 1 0 (-1)]
      = [((0 : ℤ), (5 : ℚ)), ((1 : ℤ), (-1 : ℚ))] := by
    norm_num [dailySeries, numDays, minDay, maxDay, sumOn, List.range_succ,
      List.range_zero, List.filter_cons, List.filter_nil]
    intro h
    exact absurd h (List.cons_ne_nil _ _)
  have hgen : generateForecast [SrcRow.mk 0 0 5] [10] [0] 1
      = [Row.mk 0 5 RowType.hist, Row.mk 1 10 RowType.forecast] := by
    norm_num [generateForecast, dailySeries, numDays, minDay, maxDay, sumOn,
      futureDates, final_values, floored_forecast, adjusted_forecast,
      bias_percentage, recent_avg, vals, lastN, mean, List.range_succ,
      List.range_zero, List.filter]
  have hmape : mape [((-1 : ℚ), (10 : ℚ))] = 1100 := by
    norm_num [mape, List.filter_cons]
  refine ⟨?_, hmape, ?_, by norm_num⟩
  · have hne : RowType.hist ≠ RowType.forecast := by simp
    simp only [run_backtest, hds]
    rw [if_neg (List.cons_ne_nil _ _), if_neg (by norm_num)]
    norm_num [List.take, List.drop, hgen, List.filter_cons, List.find?_cons,
      List.filterMap_cons, hmape, mean, hne]
  · norm_num [specMape, List.filter_cons]

/-- C7 (amended): the MAPE of `run_backtest` equals
`mean(|actual - predicted| / |actual|) * 100` over the joined rows with
nonzero actual (`0` when none remains) — the absolute value also covers the
denominator, since the code takes `abs` of the whole quotient; on the
zero-handling example `actual = [0, 100]`, `predicted = [10, 10]` it yields
exactly `90`. -/
theorem C7_mape_abs :
    (∀ pairs : List (ℚ × ℚ), mape pairs = specMapeAbs pairs) ∧
    mape [((0 : ℚ), (10 : ℚ)), ((100 : ℚ), (10 : ℚ))] = 90 := by
  constructor
  · intro pairs
    simp only [mape, specMapeAbs]
    have hmap : (pairs.filter (fun p => !(p.1 == 0))).map
        (fun p => |(p.1 - p.2) / p.1|)
        = (pairs.filter (fun p => !(p.1 == 0))).map
          (fun p => |p.1 - p.2| / |p.1|) :=
      List.map_congr_left (fun p _ => abs_div _ _)
    rw [hmap]
  · norm_num [mape, List.filter_cons]
    rw [show |(9 : ℚ) / 10| = 9 / 10 from abs_of_pos (by norm_num)]
    norm_num

/- Helper lemmas for the constant-history scenario of C8. -/

theorem zipWith_replicate_left (f : ℚ → ℚ → ℚ) (a : ℚ) :
    ∀ (l : List ℚ) (n : ℕ), l.length = n →
      List.zipWith f (List.replicate n a) l = l.map (f a) := by
  intro l
  induction l with
  | nil =>
      intro n h
      simp at h
      subst h
      rfl
  | cons x xs ih =>
      intro n h
      cases n with
      | zero => simp at h
      | succ m =>
          rw [List.replicate_succ, List.zipWith_cons_cons, List.map_cons]
          rw [ih m (by simpa using h)]

theorem sum_map_add_const (l : List ℚ) (a : ℚ) :
    (l.map (fun n => a + n)).sum = (l.length : ℚ) * a + l.sum := by
  induction l with
  | nil => simp
  | cons x xs ih =>
      rw [List.map_cons, List.sum_cons, List.sum_cons, ih, List.length_cons]
      push_cast
      ring

theorem abs_sum_le_length_mul (l : List ℚ) (ε : ℚ)
    (h : ∀ x ∈ l, |x| ≤ ε) : |l.sum| ≤ (l.length : ℚ) * ε := by
  induction l with
  | nil => simp
  | cons x xs ih =>
      rw [List.sum_cons, List.length_cons]
      have h1 : |x| ≤ ε := h x (List.mem_cons_self x xs)
      have h2 : |xs.sum| ≤ (xs.length : ℚ) * ε :=
        ih (fun y hy => h y (List.mem_cons_of_mem x hy))
      have h3 : |x + xs.sum| ≤ |x| + |xs.sum| := abs_add _ _
      push_cast
      linarith

/-- On a constant daily series of positive value `V` over `d ≥ 30` days, the
fallback raw forecast is mean-filled (`V` everywhere), the bias is `0` (the
first raw value equals `recent_avg`), the floor `0.4 V` is inactive, and the
clamp at `0` is inactive as long as every noise term is at least `-V`: the
post-processed values are exactly `V + noise`. -/
theorem final_values_constDaily (V : ℚ) (d H : ℕ) (noise : List ℚ)
    (hV : 0 < V) (hd : 30 ≤ d) (hH1 : 1 ≤ H) (hlen : noise.length = H)
    (hlow : ∀ n ∈ noise, -V ≤ n) :
    final_values (constDaily V d) (fallback_raw (constDaily V d) H) noise
      = noise.map (fun n => V + n) := by
  have hd0 : d ≠ 0 := by omega
  have hvals := constDaily_vals V d
  have hra : recent_avg (constDaily V d) = V := by
    rw [recent_avg, hvals]
    rw [if_neg (by simp [hd0])]
    rw [lastN, List.length_replicate, List.drop_replicate]
    rw [show d - (d - 30) = 30 by omega]
    exact mean_replicate 30 V (by norm_num)
  have hfb : fallback_raw (constDaily V d) H = List.replicate H V := by
    rw [fallback_raw, hvals, mean_replicate d V hd0]
  have hbias : bias_percentage (constDaily V d) (List.replicate H V) = 0 := by
    simp only [bias_percentage]
    have hhead : (List.replicate H V).headD 0 = V := by
      cases H with
      | zero => omega
      | succ k => rw [List.replicate_succ]; rfl
    rw [hhead, hra, if_neg (fun hc => lt_irrefl V hc.1)]
  have hadj : adjusted_forecast (constDaily V d) (List.replicate H V)
      = List.replicate H V := by
    rw [adjusted_forecast, hbias, List.map_replicate]
    rw [show V * (1 + 0) = V by ring]
  have hfl : floored_forecast (constDaily V d) (List.replicate H V)
      = List.replicate H V := by
    rw [floored_forecast, hadj, hra, List.map_replicate]
    rw [max_eq_left (by linarith : V * (2 / 5) ≤ V)]
  rw [final_values, hfb, hfl]
  rw [zipWith_replicate_left _ V noise H hlen]
  refine List.map_congr_left ?_
  intro n hn
  exact max_eq_right (by linarith [hlow n hn])

/-- C8 counterexample: constant history of value `V = 100` over 30 days,
horizon `1`, fallback path, zero noise draw.  The fallback fills the raw
forecast with the historical mean `100` (not with zeros), the bias stage
leaves it unchanged, and the post-processed mean is exactly `100 = V`,
while the claim demands `≈ V * 1.05 = 105` — off by `5`, i.e. by 5% of `V`,
far outside the noise-scale tolerance (the noise here is `0`). -/
theorem C8_counterexample :
    fallback_raw (constDaily 100 30) 1 = [100] ∧
    mean (final_values (constDaily 100 30)
        (fallback_raw (constDaily 100 30) 1) [0]) = 100 ∧
    |(100 : ℚ) - 100 * (21 / 20)| = 5 := by
  have hfb : fallback_raw (constDaily 100 30) 1 = [100] := by
    rw [fallback_raw, constDaily_vals, mean_replicate 30 100 (by norm_num)]
    rfl
  have hfin : final_values (constDaily 100 30)
      (fallback_raw (constDaily 100 30) 1) [0] = [100] := by
    rw [final_values_constDaily 100 30 1 [0] (by norm_num) (by norm_num)
      (by norm_num) (by simp)
      (by intro n hn; simp at hn; subst hn; norm_num)]
    norm_num
  refine ⟨hfb, ?_, by norm_num⟩
  rw [hfin]
  norm_num [mean]

/-- C8 (amended): for a constant history of positive value `V` over `d ≥ 30`
days and a horizon `1 ≤ H ≤ 30`, the fallback path produces post-processed
values whose mean lies within the noise bound `ε` of `V` (not of `V * 1.05`),
whenever every noise term is bounded by `ε ≤ V` in absolute value: the
mean-filled fallback makes the first raw value equal `recent_avg`, so the
bias stage adds nothing, and the floor `0.4 V` stays inactive. -/
theorem C8_fallback_mean (V ε : ℚ) (d H : ℕ) (noise : List ℚ)
    (hV : 0 < V) (hd : 30 ≤ d) (hH1 : 1 ≤ H) (hH30 : H ≤ 30)
    (hlen : noise.length = H) (hnb : ∀ n ∈ noise, |n| ≤ ε) (hεV : ε ≤ V) :
    |mean (final_values (constDaily V d)
        (fallback_raw (constDaily V d) H) noise) - V| ≤ ε := by
  have hfin := final_values_constDaily V d H noise hV hd hH1 hlen
    (fun n hn => by have h := (abs_le.1 (hnb n hn)).1; linarith)
  rw [hfin, mean, sum_map_add_const, List.length_map, hlen]
  have hH0 : (0 : ℚ) < H := by exact_mod_cast (by omega : 0 < H)
  have hrw : ((H : ℚ) * V + noise.sum) / H - V = noise.sum / H := by
    field_simp
  rw [hrw, abs_div, abs_of_pos hH0, div_le_iff₀ hH0]
  have habs : |noise.sum| ≤ (H : ℚ) * ε := by
    have h := abs_sum_le_length_mul noise ε hnb
    rwa [hlen] at h
  calc |noise.sum| ≤ (H : ℚ) * ε := habs
    _ = ε * H := by ring

theorem C8_witness :
    |mean (final_values (constDaily 100 30)
        (fallback_raw (constDaily 100 30) 1) [1]) - 100| ≤ 1 :=
  C8_fallback_mean 100 1 30 1 [1] (by norm_num) (by norm_num) (by norm_num)
    (by norm_num) (by simp)
    (by intro n hn; simp at hn; subst hn; norm_num) (by norm_num)

/-- C9: when the per-day aggregated history (one entry per distinct calendar
day present in the data, no reindexing) has fewer than 14 entries,
`generate_smart_insights` returns the fixed insufficient-data sentinel with no
further computation (the embedding is a total function: no exception). -/
theorem C9_insights_insufficient (rows : List SrcRow) (fc : List Row)
    (h : ((rows.map (fun r => r.day)).toFinset).card < 14) :
    generate_smart_insights rows fc = InsightResult.insufficientData := by
  have hlen : (insightsDaily rows).length < 14 := by
    rw [insightsDaily, List.length_map, distinctDays, Finset.length_sort]
    exact h
  simp only [generate_smart_insights]
  rw [if_pos hlen]

theorem C9_witness :
    generate_smart_insights [SrcRow.mk 0 0 1] []
      = InsightResult.insufficientData :=
  C9_insights_insufficient [SrcRow.mk 0 0 1] [] (by decide)

end EducaDash
